import Mathlib

/-!
Shallow embedding of the smartmon-exporter telemetry code.  Strings are
modelled as Lean strings; the helper functions below mirror the pieces of
the Go standard library the program uses (whitespace splitting, trimming,
decimal parsing), restricted to the character sets that can actually
reach them.  Every definition follows one function of the source tree;
the doc comment of each names the source symbol it embeds.
-/

/-- Characters treated as white space, as in the Go standard library
(ASCII subset of unicode.IsSpace; the tool output is ASCII). -/
def isGoSpace (c : Char) : Bool :=
  c = ' ' || c = '\t' || c = '\n' || c = '\x0b' || c = '\x0c' || c = '\r'

/-- Splitting a character list at every occurrence of one separator
character, keeping empty segments, as strings.Split does for a
single-character separator. -/
def splitOnChar (sep : Char) : List Char → List (List Char)
  | [] => [[]]
  | c :: cs =>
    let r := splitOnChar sep cs
    if c = sep then [] :: r
    else
      match r with
      | x :: xs => (c :: x) :: xs
      | [] => [[c]]

/-- Lines of a string, as the Go code obtains them with
strings.Split(s, "\n"). -/
def goSplitLines (s : String) : List String :=
  (splitOnChar '\n' s.data).map String.mk

/-- Accumulator loop behind goFields. -/
def goFieldsAux : List Char → List Char → List (List Char)
  | [], cur => if cur.isEmpty then [] else [cur.reverse]
  | c :: cs, cur =>
    if isGoSpace c then
      if cur.isEmpty then goFieldsAux cs [] else cur.reverse :: goFieldsAux cs []
    else goFieldsAux cs (c :: cur)

/-- strings.Fields: the maximal runs of non-space characters. -/
def goFields (s : String) : List String :=
  (goFieldsAux s.data []).map String.mk

/-- strings.TrimSpace on the character list level. -/
def trimChars (cs : List Char) : List Char :=
  ((cs.dropWhile isGoSpace).reverse.dropWhile isGoSpace).reverse

/-- strings.TrimSpace. -/
def goTrim (s : String) : String :=
  String.mk (trimChars s.data)

/-- strings.HasPrefix s p. -/
def hasPre (s p : String) : Bool :=
  p.data.isPrefixOf s.data

/-- Digit run to a natural number. -/
def digitsToNat (ds : List Char) : Nat :=
  ds.foldl (fun a c => a * 10 + (c.toNat - 48)) 0

/-- Decimal forms accepted by strconv.ParseFloat: optional sign, digits
with at most one point, optional decimal exponent.  The hexadecimal,
infinity and NaN forms never appear in the fields the program parses and
are omitted.  The value is kept exact as a rational; every comparison the
program performs on these values is on quantities whose decimal gap is
far above float64 rounding, so the rational order is the float64 order. -/
def parseGoFloat (cs0 : List Char) : Option ℚ :=
  let signAndRest : Int × List Char :=
    match cs0 with
    | '+' :: r => (1, r)
    | '-' :: r => (-1, r)
    | r => (1, r)
  let sgn := signAndRest.1
  let cs1 := signAndRest.2
  let ip := cs1.takeWhile Char.isDigit
  let cs2 := cs1.drop ip.length
  let fracAndRest : List Char × List Char :=
    match cs2 with
    | '.' :: r => (r.takeWhile Char.isDigit, r.drop (r.takeWhile Char.isDigit).length)
    | r => ([], r)
  let fp := fracAndRest.1
  let cs3 := fracAndRest.2
  if ip.isEmpty && fp.isEmpty then none
  else
    let mantNum : Int := sgn * (digitsToNat ip * 10 ^ fp.length + digitsToNat fp)
    let mantDen : Nat := 10 ^ fp.length
    match cs3 with
    | [] => some (mkRat mantNum mantDen)
    | e :: r =>
      if e = 'e' || e = 'E' then
        let esignAndRest : Bool × List Char :=
          match r with
          | '+' :: r2 => (false, r2)
          | '-' :: r2 => (true, r2)
          | r2 => (false, r2)
        let eneg := esignAndRest.1
        let r1 := esignAndRest.2
        let ed := r1.takeWhile Char.isDigit
        if ed.isEmpty || !(r1.drop ed.length).isEmpty then none
        else if eneg then some (mkRat mantNum (mantDen * 10 ^ digitsToNat ed))
        else some (mkRat (mantNum * 10 ^ digitsToNat ed) mantDen)
      else none

/-- Numeric version component as the semver library parses it: nonempty,
all digits, no leading zero. -/
def parseVersionNat (cs : List Char) : Option Nat :=
  if cs.isEmpty then none
  else if !(cs.all Char.isDigit) then none
  else if cs.length > 1 && cs.take 1 = ['0'] then none
  else some (digitsToNat cs)

/-- semver.Parse of github.com/blang/semver on the purely numeric
versions this program compares: exactly three dot-separated numeric
components (versions carrying pre-release or build suffixes do not occur
in the compared constants and would fail the numeric component check). -/
def semverParse (s : String) : Option (Nat × Nat × Nat) :=
  match splitOnChar '.' s.data with
  | [a, b, c] => do
    let a' ← parseVersionNat a
    let b' ← parseVersionNat b
    let c' ← parseVersionNat c
    pure (a', b', c')
  | _ => none

/-- semver.ParseTolerant: trims space, strips a leading lowercase v,
and pads a one- or two-component version with zero components before
parsing. -/
def semverParseTolerant (s : String) : Option (Nat × Nat × Nat) :=
  let t := trimChars s.data
  let t1 : List Char :=
    match t with
    | 'v' :: r => r
    | r => r
  match splitOnChar '.' t1 with
  | [a] => semverParse (String.mk (a ++ ".0.0".data))
  | [a, b] => semverParse (String.mk (a ++ ['.'] ++ b ++ ".0".data))
  | [a, b, c] => semverParse (String.mk (a ++ ['.'] ++ b ++ ['.'] ++ c))
  | _ => none

/-- Version.LT of the semver library: lexicographic on the numeric
triple. -/
def semverLT (x y : Nat × Nat × Nat) : Bool :=
  decide (x.1 < y.1 ∨ (x.1 = y.1 ∧ (x.2.1 < y.2.1 ∨ (x.2.1 = y.2.1 ∧ x.2.2 < y.2.2))))

/-- CheckSupportedVersion of the smart package as a function of the
version string the tool reported (the command invocation is abstracted
into its output).  smartMonMinVersion is the constant "6.6.0"; false
stands for the error return. -/
def checkSupportedVersion (installed : String) : Bool :=
  match semverParse installed with
  | none => false
  | some v => !(semverLT v (6, 6, 0))

/-- JSONCapable of the smart package as a function of the reported
version string.  smartMonMinVersionJSON is the constant "7.0.0". -/
def jsonCapable (installed : String) : Bool :=
  match semverParseTolerant installed with
  | none => false
  | some v => !(semverLT v (7, 0, 0))

/-- smartCtrlCheckVersion of the legacy main package as a function of the
minimum string and the reported version string: both are parsed with
strconv.ParseFloat and compared as numbers; false stands for the error
return (unparsable version or installed below minimum). -/
def smartCtrlCheckVersionOk (minVerString installedVerString : String) : Bool :=
  match parseGoFloat minVerString.data with
  | none => false
  | some minVer =>
    match parseGoFloat installedVerString.data with
    | none => false
    | some installedVer => !(installedVer < minVer)

/-- Modelled from the spec: the list of numeric components of a version
string (split on dots, every component a nonempty digit run). -/
def versionComponents (s : String) : Option (List Nat) :=
  let ps := splitOnChar '.' s.data
  if ps.all (fun p => !p.isEmpty && p.all Char.isDigit) then some (ps.map digitsToNat)
  else none

/-- Modelled from the spec: component-wise numeric comparison, missing
components counting as zero. -/
def cwGE : List Nat → List Nat → Bool
  | [], ys => ys.all (fun y => y = 0)
  | x :: xs, [] => if x = 0 then cwGE xs [] else true
  | x :: xs, y :: ys => if x > y then true else if x < y then false else cwGE xs ys

/-- Modelled from the spec: versionAtLeast on version strings, by
component-wise numeric comparison; none when a string is not a version. -/
def cwVersionAtLeast (a b : String) : Option Bool :=
  match versionComponents a, versionComponents b with
  | some x, some y => some (cwGE x y)
  | _, _ => none

theorem not_semverLT_iff_cwGE (x y z u v w : Nat) :
    (!(semverLT (x, y, z) (u, v, w))) = true ↔ cwGE [x, y, z] [u, v, w] = true := by
  simp only [semverLT, cwGE, Bool.not_eq_true', decide_eq_false_iff_not]
  constructor
  · intro h
    split_ifs <;> simp_all <;> omega
  · intro h
    split_ifs at h <;> simp_all <;> omega

/-- C1 counterexample: against the minimum "6.6" that the legacy main
package actually passes, the reported version "6.10" is component-wise at
least the minimum, yet smartCtrlCheckVersion rejects it, because
strconv.ParseFloat reads "6.10" as the number 6.1 which is below 6.6. -/
theorem c1_float_check_disagrees :
    cwVersionAtLeast "6.10" "6.6" = some true ∧
    smartCtrlCheckVersionOk "6.6" "6.10" = false := by
  constructor <;> decide

/-- C1 (amended): the semver-based version checks of the smart package
(the minimum-usable check CheckSupportedVersion against 6.6.0 and the
JSON-capability check JSONCapable against 7.0.0) agree with
component-wise numeric comparison of the version components; the legacy
main package check smartCtrlCheckVersion, which parses versions as
floats, does not. -/
theorem c1_semver_checks_componentwise (s : String) (a b c : Nat) :
    (semverParse s = some (a, b, c) →
      (checkSupportedVersion s = true ↔ cwGE [a, b, c] [6, 6, 0] = true)) ∧
    (semverParseTolerant s = some (a, b, c) →
      (jsonCapable s = true ↔ cwGE [a, b, c] [7, 0, 0] = true)) := by
  constructor
  · intro h
    rw [checkSupportedVersion, h]
    exact not_semverLT_iff_cwGE a b c 6 6 0
  · intro h
    rw [jsonCapable, h]
    exact not_semverLT_iff_cwGE a b c 7 0 0

/-- Witness for the amended C1 theorem at the concrete version 7.1.2. -/
theorem c1_semver_checks_componentwise_witness :
    (semverParse "7.1.2" = some (7, 1, 2) ∧
      (checkSupportedVersion "7.1.2" = true ↔ cwGE [7, 1, 2] [6, 6, 0] = true)) ∧
    (semverParseTolerant "7.0" = some (7, 0, 0) ∧
      (jsonCapable "7.0" = true ↔ cwGE [7, 0, 0] [7, 0, 0] = true)) :=
  ⟨⟨by decide, (c1_semver_checks_componentwise "7.1.2" 7 1 2).1 (by decide)⟩,
   ⟨by decide, (c1_semver_checks_componentwise "7.0" 7 0 0).2 (by decide)⟩⟩

/-- One character of strings.ReplaceAll(s, old, "_") for the
single-character patterns the sanitizer uses. -/
def replUnderscore (old c : Char) : Char :=
  if c = old then '_' else c

/-- sanitizeLabelName of the smart package: spaces, slashes, hyphens and
dots are replaced with underscores, then the string is lower-cased.
strings.ToLower is modelled by its ASCII case mapping; every label key
the program sanitizes is ASCII. -/
def sanitizeLabelName (s : String) : String :=
  String.mk (((((s.data.map (replUnderscore ' ')).map (replUnderscore '/')).map
      (replUnderscore '-')).map (replUnderscore '.')).map Char.toLower)

theorem char_ofNat_plus32_toNat (n : Nat) (h1 : 65 ≤ n) (h2 : n ≤ 90) :
    (Char.ofNat (n + 32)).toNat = n + 32 := by
  interval_cases n <;> decide

theorem toLower_of_upper (c : Char) (h : 65 ≤ c.toNat ∧ c.toNat ≤ 90) :
    Char.toLower c = Char.ofNat (c.toNat + 32) := by
  rw [Char.toLower, if_pos]
  exact ⟨h.1, h.2⟩

theorem toLower_of_not_upper (c : Char) (h : ¬(65 ≤ c.toNat ∧ c.toNat ≤ 90)) :
    Char.toLower c = c := by
  rw [Char.toLower, if_neg]
  exact fun hc => h ⟨hc.1, hc.2⟩

theorem toLower_toNat_not_upper (c : Char) :
    ¬(65 ≤ (Char.toLower c).toNat ∧ (Char.toLower c).toNat ≤ 90) := by
  by_cases h : 65 ≤ c.toNat ∧ c.toNat ≤ 90
  · rw [toLower_of_upper c h, char_ofNat_plus32_toNat c.toNat h.1 h.2]
    omega
  · rw [toLower_of_not_upper c h]
    exact h

theorem toLower_idem (c : Char) : Char.toLower (Char.toLower c) = Char.toLower c :=
  toLower_of_not_upper _ (toLower_toNat_not_upper c)

theorem replUnderscore_ne (old c : Char) (hold : old.toNat ≠ 95) :
    replUnderscore old c ≠ old := by
  rw [replUnderscore]
  split_ifs with h
  · intro he
    apply hold
    rw [← he]
    decide
  · exact h

theorem ne_of_toNat_ne {c d : Char} (h : c.toNat ≠ d.toNat) : c ≠ d :=
  fun he => h (he ▸ rfl)

theorem toLower_pres_ne (c d : Char) (hc : c ≠ d)
    (hd1 : d.toNat < 65 ∨ 122 < d.toNat) : Char.toLower c ≠ d := by
  by_cases h : 65 ≤ c.toNat ∧ c.toNat ≤ 90
  · rw [toLower_of_upper c h]
    apply ne_of_toNat_ne
    rw [char_ofNat_plus32_toNat c.toNat h.1 h.2]
    omega
  · rw [toLower_of_not_upper c h]
    exact hc

theorem replUnderscore_of_ne (old c : Char) (h : c ≠ old) :
    replUnderscore old c = c := by
  rw [replUnderscore, if_neg h]

/-- One character of the whole sanitization pipeline. -/
def sanitizeChar (c : Char) : Char :=
  Char.toLower (replUnderscore '.' (replUnderscore '-' (replUnderscore '/' (replUnderscore ' ' c))))

theorem sanitizeLabelName_eq_map (s : String) :
    sanitizeLabelName s = String.mk (s.data.map sanitizeChar) := by
  rw [sanitizeLabelName]
  simp only [List.map_map]
  refine congrArg String.mk (List.map_congr_left (fun a _ => ?_))
  simp only [Function.comp_apply, sanitizeChar]

theorem replU_ne_of (old x d : Char) (h1 : x ≠ d) (h2 : ('_' : Char) ≠ d) :
    replUnderscore old x ≠ d := by
  rw [replUnderscore]
  split_ifs
  · exact h2
  · exact h1

theorem sanitizeChar_idem (c : Char) : sanitizeChar (sanitizeChar c) = sanitizeChar c := by
  have n1 : replUnderscore ' ' c ≠ ' ' := replUnderscore_ne ' ' c (by decide)
  have n2a : replUnderscore '/' (replUnderscore ' ' c) ≠ ' ' := replU_ne_of _ _ _ n1 (by decide)
  have n2b : replUnderscore '/' (replUnderscore ' ' c) ≠ '/' := replUnderscore_ne '/' _ (by decide)
  have n3a : replUnderscore '-' (replUnderscore '/' (replUnderscore ' ' c)) ≠ ' ' :=
    replU_ne_of _ _ _ n2a (by decide)
  have n3b : replUnderscore '-' (replUnderscore '/' (replUnderscore ' ' c)) ≠ '/' :=
    replU_ne_of _ _ _ n2b (by decide)
  have n3c : replUnderscore '-' (replUnderscore '/' (replUnderscore ' ' c)) ≠ '-' :=
    replUnderscore_ne '-' _ (by decide)
  have n4a : replUnderscore '.' (replUnderscore '-' (replUnderscore '/' (replUnderscore ' ' c))) ≠ ' ' :=
    replU_ne_of _ _ _ n3a (by decide)
  have n4b : replUnderscore '.' (replUnderscore '-' (replUnderscore '/' (replUnderscore ' ' c))) ≠ '/' :=
    replU_ne_of _ _ _ n3b (by decide)
  have n4c : replUnderscore '.' (replUnderscore '-' (replUnderscore '/' (replUnderscore ' ' c))) ≠ '-' :=
    replU_ne_of _ _ _ n3c (by decide)
  have n4d : replUnderscore '.' (replUnderscore '-' (replUnderscore '/' (replUnderscore ' ' c))) ≠ '.' :=
    replUnderscore_ne '.' _ (by decide)
  have d1 : sanitizeChar c ≠ ' ' := toLower_pres_ne _ _ n4a (by left; decide)
  have d2 : sanitizeChar c ≠ '/' := toLower_pres_ne _ _ n4b (by left; decide)
  have d3 : sanitizeChar c ≠ '-' := toLower_pres_ne _ _ n4c (by left; decide)
  have d4 : sanitizeChar c ≠ '.' := toLower_pres_ne _ _ n4d (by left; decide)
  conv_lhs => rw [sanitizeChar]
  rw [replUnderscore_of_ne ' ' _ d1, replUnderscore_of_ne '/' _ d2,
    replUnderscore_of_ne '-' _ d3, replUnderscore_of_ne '.' _ d4]
  exact toLower_idem (replUnderscore '.' (replUnderscore '-' (replUnderscore '/' (replUnderscore ' ' c))))

/-- C8: the sanitizer maps the concrete key "SMART Health-Status.V2" to
"smart_health_status_v2", and sanitization is idempotent on every
string. -/
theorem map_sanitizeChar_idem :
    ∀ l : List Char, (l.map sanitizeChar).map sanitizeChar = l.map sanitizeChar
  | [] => rfl
  | c :: cs => by
    rw [List.map_cons, List.map_cons, sanitizeChar_idem c, map_sanitizeChar_idem cs]

theorem sanitizeLabelName_idem_aux (s : String) :
    sanitizeLabelName (sanitizeLabelName s) = sanitizeLabelName s := by
  rw [sanitizeLabelName_eq_map, sanitizeLabelName_eq_map]
  show String.mk ((s.data.map sanitizeChar).map sanitizeChar) = String.mk (s.data.map sanitizeChar)
  rw [map_sanitizeChar_idem]

theorem c8_sanitize_concrete_and_idem :
    sanitizeLabelName "SMART Health-Status.V2" = "smart_health_status_v2" ∧
    ∀ s : String, sanitizeLabelName (sanitizeLabelName s) = sanitizeLabelName s :=
  ⟨rfl, sanitizeLabelName_idem_aux⟩

/-- Trailing carriage return removal performed by bufio.ScanLines. -/
def dropTrailingCR (cs : List Char) : List Char :=
  if cs.getLast? = some '\r' then cs.dropLast else cs

/-- firstLine from strings.go and from the smart package: the first line
of the text via a bufio.Scanner.  For empty input the scanner yields no
token and the Go code panics; none models that panic. -/
def firstLine (text : String) : Option String :=
  if text.data.isEmpty then none
  else some (String.mk (dropTrailingCR (text.data.takeWhile (fun c => !(c = '\n')))))

/-- Version extraction shared by smartMonVersion of the legacy main
package and Version of the smart package: the second whitespace field of
the first line of the version-command output.  none models a panic
(empty output) or an index out of range (fewer than two fields). -/
def versionFromOutput (output : String) : Option String :=
  match firstLine output with
  | none => none
  | some l => (goFields l).get? 1

/-- C10: firstLine has no value on the empty input (the Go code panics
there), and therefore the version-extraction path smartMonVersion /
Version is not total when the tool produces empty output, while any
nonempty output does give firstLine a value. -/
theorem c10_firstLine_empty_input :
    firstLine "" = none ∧
    versionFromOutput "" = none ∧
    ∀ s : String, s.data ≠ [] → (firstLine s).isSome = true := by
  refine ⟨rfl, rfl, fun s h => ?_⟩
  rw [firstLine, if_neg (by simpa using h)]
  rfl

/-- Witness for the nonempty-input part of the C10 theorem. -/
theorem c10_firstLine_empty_input_witness :
    "smartctl 7.1".data ≠ [] ∧ (firstLine "smartctl 7.1").isSome = true :=
  ⟨by decide, c10_firstLine_empty_input.2.2 "smartctl 7.1" (by decide)⟩

/-- Word characters of the RE2 class [\w]. -/
def isWordChar (c : Char) : Bool :=
  c.isAlphanum || c = '_'

/-- All decompositions l = front ++ needle ++ back, longest front first:
the order in which a greedy leftmost-first match tries the positions of a
literal needle. -/
def splitsDesc (needle l : List Char) : List (List Char × List Char) :=
  (List.range (l.length + 1)).reverse.filterMap fun i =>
    if (l.drop i).take needle.length = needle then
      some (l.take i, l.drop (i + needle.length))
    else none

/-- Tail of the device pattern after the literal " -d ": a nonempty run
of word characters (the greedy [\w]+ is forced because the following
literal starts with a space), the literal " # ", then a greedy split of
the remainder at the last ", " with both sides nonempty (the two final
greedy .+ groups). -/
def matchAfterDashD (rest : List Char) : Option (List Char × List Char × List Char) :=
  let g2 := rest.takeWhile isWordChar
  if g2.isEmpty then none
  else
    let r := rest.drop g2.length
    if r.take 3 = " # ".data then
      match (splitsDesc ", ".data (r.drop 3)).find? (fun pq => !pq.1.isEmpty && !pq.2.isEmpty) with
      | some (g3, g4) => some (g2, g3, g4)
      | none => none
    else none

/-- smartctlDeviceRegex of the smart package, the anchored pattern
of one path group, " -d ", a word-character type group, " # ", and two
comma-separated trailing groups, on a line containing no newline (the
caller splits on newlines first).  The first group is a slash-initial
run of at least two characters, chosen greedily over the occurrences of
" -d " with backtracking, as the regex engine matches it. -/
def matchDeviceLine (line : String) : Option (String × String × String × String) :=
  match (splitsDesc " -d ".data line.data).findSome? (fun pq =>
      if pq.1.head? = some '/' && decide (pq.1.length ≥ 2) then
        (matchAfterDashD pq.2).map fun g => (pq.1, g)
      else none) with
  | some (g1, g2, g3, g4) => some (String.mk g1, String.mk g2, String.mk g3, String.mk g4)
  | none => none

/-- Device of the smart package. -/
structure Device where
  Name : String
  InfoName : String
  Type' : String
  Protocol : String
deriving DecidableEq, Repr

/-- Loop of scanDevices over the split lines: blank lines are skipped, a
line the device pattern does not match is a hard error (none, modelling
the nil-devices error return), a matching line contributes one Device. -/
def scanDevicesLines : List String → Option (List Device)
  | [] => some []
  | line :: rest =>
    if goTrim line = "" then scanDevicesLines rest
    else
      match matchDeviceLine line with
      | none => none
      | some (n, t, i, p) =>
        match scanDevicesLines rest with
        | none => none
        | some ds => some ({ Name := n, Type' := t, InfoName := i, Protocol := p } :: ds)

/-- scanDevices of the smart package as a function of the scan output;
none models the error return, which carries no devices. -/
def scanDevices (output : String) : Option (List Device) :=
  scanDevicesLines (goSplitLines output)

theorem scanDevicesLines_none (lines : List String) (line : String)
    (hmem : line ∈ lines) (hblank : goTrim line ≠ "")
    (hmatch : matchDeviceLine line = none) :
    scanDevicesLines lines = none := by
  induction lines with
  | nil => cases hmem
  | cons l ls ih =>
    rcases List.mem_cons.mp hmem with h | h
    · subst h
      rw [scanDevicesLines, if_neg hblank, hmatch]
    · rw [scanDevicesLines]
      split_ifs
      · exact ih h
      · rw [ih h]
        cases matchDeviceLine l <;> rfl

/-- C2 helper is below; C4: legacy enumeration is all-or-nothing.  If the
scan output contains a line that is not blank and does not match the
four-part device pattern, scanDevices fails and returns no devices. -/
theorem c4_malformed_line_aborts (output line : String)
    (hmem : line ∈ goSplitLines output) (hblank : goTrim line ≠ "")
    (hmatch : matchDeviceLine line = none) :
    scanDevices output = none :=
  scanDevicesLines_none (goSplitLines output) line hmem hblank hmatch

/-- Witness for C4 at a concrete scan output with one well-formed device
line and one malformed line. -/
theorem c4_malformed_line_aborts_witness :
    scanDevices "/dev/sda -d sat # /dev/sda [SAT], ATA device\nbogus line" = none :=
  c4_malformed_line_aborts _ "bogus line" (by decide) (by decide) (by decide)

/-- Insertion into a Go map modelled as an association list: an existing
key is overwritten, a new key is appended. -/
def mapInsert (m : List (String × String)) (k v : String) : List (String × String) :=
  if m.any (fun p => p.1 = k) then m.map (fun p => if p.1 = k then (k, v) else p)
  else m ++ [(k, v)]

/-- smartctlInfoRegex, the anchored pattern of a nonempty colon-free
group, the literal ": ", and a nonempty trailing group, applied to one
line: the name is everything before the first colon, which must be
followed by a space and a nonempty value. -/
def matchInfoLine (line : String) : Option (String × String) :=
  let cs := line.data
  let name := cs.takeWhile (fun c => !(c = ':'))
  if name.isEmpty then none
  else
    match cs.drop name.length with
    | ':' :: ' ' :: v => if v.isEmpty then none else some (String.mk name, String.mk v)
    | _ => none

/-- DeviceInfo of the smart package. -/
structure DeviceInfo where
  Available : Bool := false
  Enabled : Bool := false
  Healthy : Bool := false
  Attributes : List (String × String) := []
deriving DecidableEq, Repr

/-- Flag-and-attribute update of Device.info for one matched line:
stores the sanitized key, and the three recognized name prefixes set the
flags; a health line (Status OK or self-assessment PASSED) sets healthy,
available and enabled together. -/
def infoApplyLine (info : DeviceInfo) (name val : String) : DeviceInfo :=
  let info1 := { info with
    Attributes := mapInsert info.Attributes (sanitizeLabelName name) (goTrim val) }
  if hasPre name "SMART support is" then
    if hasPre val "Available" then { info1 with Available := true }
    else if hasPre val "Enabled" then { info1 with Enabled := true }
    else info1
  else if hasPre name "SMART Health Status" then
    if hasPre val "OK" then { info1 with Healthy := true, Available := true, Enabled := true }
    else info1
  else if hasPre name "SMART overall-health self-assessment test result" then
    if hasPre val "PASSED" then { info1 with Healthy := true, Available := true, Enabled := true }
    else info1
  else info1

/-- One line of the parse loop of Device.info: a line that does not
match the info pattern changes nothing. -/
def infoStep (info : DeviceInfo) (line : String) : DeviceInfo :=
  match matchInfoLine line with
  | none => info
  | some (name, val) => infoApplyLine info name val

/-- Device.info of the smart package as a function of the info-command
output: fold of the line parser over the split lines, starting from the
all-false record. -/
def deviceInfoOf (output : String) : DeviceInfo :=
  (goSplitLines output).foldl infoStep {}

/-- A line is a health line when it matches the info pattern with one of
the two recognized health names and passing values. -/
def isHealthLine (line : String) : Bool :=
  match matchInfoLine line with
  | none => false
  | some (name, val) =>
    (hasPre name "SMART Health Status" && hasPre val "OK") ||
      (hasPre name "SMART overall-health self-assessment test result" && hasPre val "PASSED")

/-- All three flags of a DeviceInfo. -/
def allFlags (info : DeviceInfo) : Prop :=
  info.Healthy = true ∧ info.Available = true ∧ info.Enabled = true

theorem isPrefixOf_false_of (l p q : List Char) (hp : p.isPrefixOf l = true)
    (h1 : (p.isPrefixOf q || q.isPrefixOf p) = false) : q.isPrefixOf l = false := by
  cases he : q.isPrefixOf l
  · rfl
  · exfalso
    rw [List.isPrefixOf_iff_prefix] at hp he
    rcases List.prefix_or_prefix_of_prefix hp he with h | h <;>
      rw [← List.isPrefixOf_iff_prefix] at h <;> simp [h] at h1

theorem infoApplyLine_mono (info : DeviceInfo) (name val : String) (h : allFlags info) :
    allFlags (infoApplyLine info name val) := by
  obtain ⟨h1, h2, h3⟩ := h
  simp only [infoApplyLine, allFlags]
  split_ifs <;> simp_all

theorem infoApplyLine_health (info : DeviceInfo) (name val : String)
    (h : (hasPre name "SMART Health Status" = true ∧ hasPre val "OK" = true) ∨
      (hasPre name "SMART overall-health self-assessment test result" = true ∧
        hasPre val "PASSED" = true)) :
    allFlags (infoApplyLine info name val) := by
  simp only [infoApplyLine, allFlags]
  rcases h with ⟨hn, hv⟩ | ⟨hn, hv⟩
  · have hs : hasPre name "SMART support is" = false := by
      rw [hasPre] at hn ⊢
      exact isPrefixOf_false_of _ _ _ hn (by decide)
    rw [if_neg (by simp [hs]), if_pos hn, if_pos hv]
    exact ⟨rfl, rfl, rfl⟩
  · have hs : hasPre name "SMART support is" = false := by
      rw [hasPre] at hn ⊢
      exact isPrefixOf_false_of _ _ _ hn (by decide)
    have hh : hasPre name "SMART Health Status" = false := by
      rw [hasPre] at hn ⊢
      exact isPrefixOf_false_of _ _ _ hn (by decide)
    rw [if_neg (by simp [hs]), if_neg (by simp [hh]), if_pos hn, if_pos hv]
    exact ⟨rfl, rfl, rfl⟩

theorem infoStep_mono (info : DeviceInfo) (line : String) (h : allFlags info) :
    allFlags (infoStep info line) := by
  rw [infoStep]
  cases hm : matchInfoLine line with
  | none => exact h
  | some nv =>
    obtain ⟨name, val⟩ := nv
    exact infoApplyLine_mono _ _ _ h

theorem infoStep_health (info : DeviceInfo) (line : String) (h : isHealthLine line = true) :
    allFlags (infoStep info line) := by
  rw [isHealthLine] at h
  rw [infoStep]
  cases hm : matchInfoLine line with
  | none => rw [hm] at h; cases h
  | some nv =>
    rw [hm] at h
    obtain ⟨name, val⟩ := nv
    simp only [Bool.or_eq_true, Bool.and_eq_true] at h
    exact infoApplyLine_health _ _ _ h

theorem foldl_infoStep_mono (lines : List String) (acc : DeviceInfo) (h : allFlags acc) :
    allFlags (lines.foldl infoStep acc) := by
  induction lines generalizing acc with
  | nil => exact h
  | cons l ls ih =>
    rw [List.foldl_cons]
    exact ih _ (infoStep_mono _ _ h)

theorem foldl_infoStep_health : ∀ (lines : List String) (acc : DeviceInfo) (line : String),
    line ∈ lines → isHealthLine line = true → allFlags (lines.foldl infoStep acc)
  | [], _, _, hmem, _ => absurd hmem (List.not_mem_nil _)
  | l :: ls, acc, line, hmem, h => by
    rw [List.foldl_cons]
    rcases List.mem_cons.mp hmem with he | he
    · subst he
      exact foldl_infoStep_mono ls _ (infoStep_health acc line h)
    · exact foldl_infoStep_health ls _ line he h

/-- C7: whenever the info output contains a line matching the info
pattern whose name starts with "SMART Health Status" and value starts
with "OK", or whose name starts with "SMART overall-health
self-assessment test result" and value starts with "PASSED", the
DeviceInfo produced by the legacy info parser has healthy, available and
enabled all true (no "SMART support is" line is required). -/
theorem c7_health_line_sets_all_flags (output line : String)
    (hmem : line ∈ goSplitLines output) (h : isHealthLine line = true) :
    (deviceInfoOf output).Healthy = true ∧ (deviceInfoOf output).Available = true ∧
      (deviceInfoOf output).Enabled = true := by
  rw [deviceInfoOf]
  exact foldl_infoStep_health (goSplitLines output) {} line hmem h

/-- Witness for C7 at a concrete info output with a health line and no
"SMART support is" line. -/
theorem c7_health_line_sets_all_flags_witness :
    (deviceInfoOf "Vendor: ACME\nSMART Health Status: OK").Healthy = true ∧
      (deviceInfoOf "Vendor: ACME\nSMART Health Status: OK").Available = true ∧
      (deviceInfoOf "Vendor: ACME\nSMART Health Status: OK").Enabled = true :=
  c7_health_line_sets_all_flags _ "SMART Health Status: OK" (by decide) (by decide)

/-- strings.ToLower on the metric mnemonics (ASCII case mapping, as for
the label sanitizer). -/
def lowerStr (s : String) : String :=
  String.mk (s.data.map Char.toLower)

/-- MetricDesc of the legacy main package. -/
structure MetricDesc where
  Name : String
  Help : String
  Type' : String
deriving DecidableEq, Repr

/-- Metric of the legacy main package; the label map is carried in
construction order. -/
structure Metric where
  Desc : MetricDesc
  Value : String
  Labels : List (String × String)
deriving DecidableEq, Repr

/-- NewHelpMetric of the legacy main package, verbatim: the value and
help arguments are received but the constructed Metric carries the
constant Value "1" and the default help string. -/
def NewHelpMetric (name : String) (labels : List (String × String)) (value : String)
    (help : String) : Metric :=
  { Desc := { Name := name, Help := "SMART metric " ++ name, Type' := "guage" },
    Value := "1",
    Labels := labels }

/-- NewMetric of the legacy main package: delegates to NewHelpMetric
with the default help string. -/
def NewMetric (name : String) (labels : List (String × String)) (value : String) : Metric :=
  NewHelpMetric name labels value ("SMART metric " ++ name)

/-- NewInfoMetric of the legacy main package. -/
def NewInfoMetric (name : String) (msg : String) : Metric :=
  NewHelpMetric name [("info", msg)] "1" "Status information related to metric collection"

/-- smartMonRunMetric of the legacy main package; the current unix time
is passed in as a parameter, formatted in base ten. -/
def smartMonRunMetric (dev devType : String) (now : Int) : Metric :=
  { Desc := { Name := "smartctl_run", Type' := "guage", Help := "contains current unix time" },
    Labels := [("disk", dev), ("type", devType)],
    Value := toString now }

/-- smartMonDeviceActive of the legacy main package; cmdFailed is the
non-nil-error outcome of the standby probe. -/
def smartMonDeviceActive (dev devType : String) (cmdFailed : Bool) : Metric :=
  { Desc := { Name := "smartctl_run", Type' := "guage", Help := "shows result of smartctl -n standby" },
    Labels := [("disk", dev), ("type", devType)],
    Value := if cmdFailed then "0" else "1" }

/-- Row loop of smartMonDeviceSatAttributes: a whitespace-tokenized line
with fewer than ten fields is skipped; a kept row contributes four
metrics built with NewMetric out of the tokens at positions 3, 4, 5
and 9, named after the lower-cased mnemonic at position 1, with the
smart_id label from position 0. -/
def satAttrRowsLegacy (dev devType : String) : List String → List Metric
  | [] => []
  | line :: rest =>
    let fields := goFields line
    if fields.length < 10 then satAttrRowsLegacy dev devType rest
    else
      let labels := [("disk", dev), ("type", devType), ("smart_id", fields.getD 0 "")]
      NewMetric ("smartmon_" ++ lowerStr (fields.getD 1 "") ++ "_value") labels (fields.getD 3 "") ::
      NewMetric ("smartmon_" ++ lowerStr (fields.getD 1 "") ++ "_worst") labels (fields.getD 4 "") ::
      NewMetric ("smartmon_" ++ lowerStr (fields.getD 1 "") ++ "_threshold") labels (fields.getD 5 "") ::
      NewMetric ("smartmon_" ++ lowerStr (fields.getD 1 "") ++ "_raw_value") labels (fields.getD 9 "") ::
      satAttrRowsLegacy dev devType rest

/-- smartMonDeviceSatAttributes of the legacy main package as a function
of the attribute-command output: the output drops its first character
(the slice output[1:], which panics on empty output — none) and the rest
is split into lines and fed to the row loop. -/
def smartMonDeviceSatAttributes (output dev devType : String) : Option (List Metric) :=
  match output.data with
  | [] => none
  | _ :: rest => some (satAttrRowsLegacy dev devType ((splitOnChar '\n' rest).map String.mk))

/-- C5: the legacy SAT attribute path does keep a ten-token row and drop
shorter ones, but the four metrics it emits do not carry the tokens at
positions 3, 4, 5 and 9 ("100", "100", "010", "0" here): every value is
the constant "1", because NewHelpMetric ignores its value argument. -/
theorem c5_legacy_sat_values_constant_one :
    (smartMonDeviceSatAttributes
        "X\n5 Reallocated_Sector_Ct 0x0033 100 100 010 Pre-fail Always - 0"
        "/dev/sda" "sat").map (List.map fun m => (m.Desc.Name, m.Value)) =
      some [("smartmon_reallocated_sector_ct_value", "1"),
        ("smartmon_reallocated_sector_ct_worst", "1"),
        ("smartmon_reallocated_sector_ct_threshold", "1"),
        ("smartmon_reallocated_sector_ct_raw_value", "1")] := by
  decide

theorem satAttrRowsLegacy_values_one (dev devType : String) :
    ∀ lines : List String,
      (satAttrRowsLegacy dev devType lines).all (fun m => m.Value == "1") = true
  | [] => rfl
  | line :: rest => by
    rw [satAttrRowsLegacy]
    split_ifs
    · exact satAttrRowsLegacy_values_one dev devType rest
    · simp only [List.all_cons, Bool.and_eq_true]
      exact ⟨rfl, rfl, rfl, rfl, satAttrRowsLegacy_values_one dev devType rest⟩

/-- C9: NewHelpMetric, and NewMetric which delegates to it, construct a
Metric whose Value is the constant "1" whatever value argument is
supplied; consequently every metric of the legacy SAT attribute path has
value "1". -/
theorem c9_newmetric_value_always_one :
    (∀ (n : String) (labels : List (String × String)) (v h : String),
      (NewHelpMetric n labels v h).Value = "1") ∧
    (∀ (n : String) (labels : List (String × String)) (v : String),
      (NewMetric n labels v).Value = "1") ∧
    (∀ output dev devType : String,
      ((smartMonDeviceSatAttributes output dev devType).getD []).all
        (fun m => m.Value == "1") = true) := by
  refine ⟨fun n labels v h => rfl, fun n labels v => rfl, fun output dev devType => ?_⟩
  rw [smartMonDeviceSatAttributes]
  cases output.data with
  | nil => rfl
  | cons c rest => exact satAttrRowsLegacy_values_one dev devType _

/-- Lookup in a Go map modelled as an association list; a missing key
yields the zero value, the empty string. -/
def lookupMapD (m : List (String × String)) (k : String) : String :=
  ((m.find? (fun p => p.1 = k)).map Prod.snd).getD ""

/-- Scan state of smartMonInfoMetrics: the three flag strings and the
raw (unsanitized) key-value map. -/
structure InfoScan where
  avail : String
  enabled : String
  healthy : String
  smartInfo : List (String × String)
deriving DecidableEq, Repr

/-- One line of the scan loop of smartMonInfoMetrics of the legacy main
package.  Unlike the smart package parser, the health lines here set
only the healthy flag, and the self-assessment value is compared against
the prefix "Passed". -/
def infoScanStep (st : InfoScan) (line : String) : InfoScan :=
  match matchInfoLine line with
  | none => st
  | some (name, val) =>
    let st1 := { st with smartInfo := mapInsert st.smartInfo name (goTrim val) }
    if hasPre name "SMART support is" then
      if hasPre val "Available" then { st1 with avail := "1" }
      else if hasPre val "Enabled" then { st1 with enabled := "1" }
      else st1
    else if hasPre name "SMART Health Status" then
      if hasPre val "OK" then { st1 with healthy := "1" } else st1
    else if hasPre name "SMART overall-health self-assessment test result" then
      if hasPre val "Passed" then { st1 with healthy := "1" } else st1
    else st1

/-- smartMonInfoLabels of the legacy main package: the eight fixed info
keys looked up in the scan map, then overwritten with the common
labels. -/
def smartMonInfoLabels (labels smartInfo : List (String × String)) : List (String × String) :=
  let base := [("vendor", lookupMapD smartInfo "Vendor"),
    ("product", lookupMapD smartInfo "Product"),
    ("revision", lookupMapD smartInfo "Revision"),
    ("lun_id", lookupMapD smartInfo "Logical Unit id"),
    ("model_family", lookupMapD smartInfo "Model Family"),
    ("device_model", lookupMapD smartInfo "Device Model"),
    ("serial_number", lookupMapD smartInfo "Serial Number"),
    ("firmware_version", lookupMapD smartInfo "Firmware Version")]
  labels.foldl (fun acc kv => mapInsert acc kv.1 kv.2) base

/-- smartMonInfoMetrics of the legacy main package as a function of the
info-command output: the info metric and the three flag metrics (all
built with NewMetric). -/
def smartMonInfoMetrics (output dev devType : String) : List Metric :=
  let st := (goSplitLines output).foldl infoScanStep ⟨"0", "0", "0", []⟩
  let commonLabels := [("disk", dev), ("type", devType)]
  [NewMetric "smartmon_device_info" (smartMonInfoLabels commonLabels st.smartInfo) "1",
   NewMetric "smartmon_device_smart_available" commonLabels st.avail,
   NewMetric "smartmon_device_smart_enabled" commonLabels st.enabled,
   NewMetric "smartmon_device_smart_healthy" commonLabels st.healthy]

/-- Invocations of the external tool, identified by their option set and
target device. -/
inductive Cmd where
  | version
  | scan
  | active (devType dev : String)
  | info (devType dev : String)
  | attrs (devType dev : String)
deriving DecidableEq, Repr

/-- Outputs of the external command runner for one collection pass: the
version-command output, the wall-clock time, whether the non-waking
standby probe of a device succeeds, and the per-device info and
attribute outputs.  Commands other than the standby probe are taken to
succeed; the probe is the one whose failure the code interprets. -/
structure World where
  versionOutput : String
  time : Int
  activeOk : String → String → Bool
  infoOutput : String → String → String
  attrOutput : String → String → String

/-- Loop body of main of the legacy package for one device: print the
run metric, run the standby probe and print the active metric, and only
when its value is "1" read and print the info metrics and the attribute
metrics.  The first component lists the printed metrics, the second the
tool invocations issued for this device; none models a panic (empty
attribute output).  Non-SAT device types produce a placeholder metric
without an attribute command. -/
def mainDeviceBody (w : World) (dev devType : String) : Option (List Metric × List Cmd) :=
  let runM := smartMonRunMetric dev devType w.time
  let activeM := smartMonDeviceActive dev devType (!(w.activeOk devType dev))
  if activeM.Value == "1" then
    let infoMs := smartMonInfoMetrics (w.infoOutput devType dev) dev devType
    if hasPre devType "sat" then
      match smartMonDeviceSatAttributes (w.attrOutput devType dev) dev devType with
      | none => none
      | some attrMs =>
        some (runM :: activeM :: infoMs ++ attrMs,
          [Cmd.active devType dev, Cmd.info devType dev, Cmd.attrs devType dev])
    else
      some (runM :: activeM :: infoMs ++
          [NewMetric "smartmon_info" [("disk", dev)]
            ("type is not sat, scsi or megaraid but " ++ devType)],
        [Cmd.active devType dev, Cmd.info devType dev])
  else some ([runM, activeM], [Cmd.active devType dev])

/-- A concrete pass in which every standby probe fails. -/
def inactiveWorld : World :=
  { versionOutput := "smartctl 6.6 2017-11-05 r4594 [x86_64-linux] (local build)",
    time := 1700000000,
    activeOk := fun _ _ => false,
    infoOutput := fun _ _ => "",
    attrOutput := fun _ _ => "" }

/-- C3 fails on the code: in one emission batch of the legacy main loop
the timestamp run measurement and the active-state measurement are both
named "smartctl_run" and carry the identical label map, so the two are
not distinguishable by name or labels. -/
theorem c3_run_and_active_collide :
    mainDeviceBody inactiveWorld "/dev/sda" "sat" =
      some ([smartMonRunMetric "/dev/sda" "sat" 1700000000,
        smartMonDeviceActive "/dev/sda" "sat" true], [Cmd.active "sat" "/dev/sda"]) ∧
    (smartMonRunMetric "/dev/sda" "sat" 1700000000).Desc.Name =
      (smartMonDeviceActive "/dev/sda" "sat" true).Desc.Name ∧
    (smartMonRunMetric "/dev/sda" "sat" 1700000000).Labels =
      (smartMonDeviceActive "/dev/sda" "sat" true).Labels := by
  refine ⟨?_, rfl, rfl⟩
  rfl

/-- One Prometheus const metric as the collector emits it: descriptor
name, label map, gauge value (exact rational; the values emitted are
small decimals, exact in float64). -/
structure PromMetric where
  name : String
  labels : List (String × String)
  value : ℚ
deriving DecidableEq, Repr

/-- Token of a row at a position (Go slice indexing; the callers have
already checked the length bound, so the default is never reached). -/
def fieldAt (fs : List String) (i : Nat) : String :=
  fs.getD i ""

/-- Row loop of CollectSatVendorAttributes of the smart package: a line
with fewer than ten whitespace tokens is skipped; a kept row parses the
tokens at positions 3, 4, 5 and 9 with strconv.ParseFloat, emitting each
metric as soon as its token parses and returning the error as soon as
one does not (the error is modelled by the offending token).  A parse
failure therefore keeps the metrics already emitted, drops the rest of
the row and every following row, and ends the loop. -/
def satRows (dev devType : String) : List String → List PromMetric × Option String
  | [] => ([], none)
  | line :: rest =>
    let fields := goFields line
    if fields.length < 10 then satRows dev devType rest
    else
      let labels := [("disk", dev), ("type", devType), ("smart_id", fieldAt fields 0)]
      let mp := "smartmon_" ++ lowerStr (fieldAt fields 1)
      match parseGoFloat (fieldAt fields 3).data with
      | none => ([], some (fieldAt fields 3))
      | some v3 =>
        match parseGoFloat (fieldAt fields 4).data with
        | none => ([⟨mp ++ "_value", labels, v3⟩], some (fieldAt fields 4))
        | some v4 =>
          match parseGoFloat (fieldAt fields 5).data with
          | none => ([⟨mp ++ "_value", labels, v3⟩, ⟨mp ++ "_worst", labels, v4⟩],
              some (fieldAt fields 5))
          | some v5 =>
            match parseGoFloat (fieldAt fields 9).data with
            | none => ([⟨mp ++ "_value", labels, v3⟩, ⟨mp ++ "_worst", labels, v4⟩,
                ⟨mp ++ "_threshold", labels, v5⟩], some (fieldAt fields 9))
            | some v9 =>
              (⟨mp ++ "_value", labels, v3⟩ :: ⟨mp ++ "_worst", labels, v4⟩ ::
                ⟨mp ++ "_threshold", labels, v5⟩ :: ⟨mp ++ "_raw_value", labels, v9⟩ ::
                (satRows dev devType rest).1,
               (satRows dev devType rest).2)

/-- CollectSatVendorAttributes of the smart package as a function of the
attribute-command output: the output drops its first character (the
slice output[1:], which panics on empty output — none), the rest is
split into lines and fed to the row loop; the pair carries the emitted
metrics and the error return. -/
def collectSatVendorAttributes (output dev devType : String) :
    Option (List PromMetric × Option String) :=
  match output.data with
  | [] => none
  | _ :: rest => some (satRows dev devType ((splitOnChar '\n' rest).map String.mk))

theorem satRows_append (dev devType : String) (front back : List String)
    (hfront : (satRows dev devType front).2 = none) :
    satRows dev devType (front ++ back) =
      ((satRows dev devType front).1 ++ (satRows dev devType back).1,
        (satRows dev devType back).2) := by
  induction front with
  | nil => simp [satRows]
  | cons l ls ih =>
    rw [List.cons_append]
    by_cases h10 : (goFields l).length < 10
    · simp only [satRows, if_pos h10] at hfront ⊢
      exact ih hfront
    · rcases hp3 : parseGoFloat (fieldAt (goFields l) 3).data with _ | v3
      · simp [satRows, if_neg h10, hp3] at hfront
      · rcases hp4 : parseGoFloat (fieldAt (goFields l) 4).data with _ | v4
        · simp [satRows, if_neg h10, hp3, hp4] at hfront
        · rcases hp5 : parseGoFloat (fieldAt (goFields l) 5).data with _ | v5
          · simp [satRows, if_neg h10, hp3, hp4, hp5] at hfront
          · rcases hp9 : parseGoFloat (fieldAt (goFields l) 9).data with _ | v9
            · simp [satRows, if_neg h10, hp3, hp4, hp5, hp9] at hfront
            · simp only [satRows, if_neg h10, hp3, hp4, hp5, hp9] at hfront ⊢
              rw [ih hfront]
              simp

/-- A concrete attribute output: a preamble line, a fully numeric row, a
row whose VALUE token "xx" does not parse, and another fully numeric
row. -/
def satMixedOutput : String :=
  "X\n5 Reallocated 0x0033 100 100 010 Pre-fail Always - 0\n7 Seek 0x002f xx 100 030 Pre-fail Always - 0\n9 Power_On 0x0032 95 95 000 Old_age Always - 24299"

/-- C6 counterexample: with a later fully parsable row (id 9) behind a
row whose value token fails to parse, CollectSatVendorAttributes emits
only the first row's four measurements and returns the error; the
parsable row 9 yields no measurements, so rows are not independent. -/
theorem c6_parse_failure_not_row_local :
    ((collectSatVendorAttributes satMixedOutput "/dev/sda" "sat").map
      (fun r => (r.1.map PromMetric.name, r.2))) =
      some (["smartmon_reallocated_value", "smartmon_reallocated_worst",
        "smartmon_reallocated_threshold", "smartmon_reallocated_raw_value"], some "xx") := by
  decide

/-- White space skipped by the JSON decoder. -/
def skipWs (cs : List Char) : List Char :=
  cs.dropWhile (fun c => c = ' ' || c = '\t' || c = '\n' || c = '\r')

/-- Body of a JSON string after the opening quote: returns the raw
content (escape pairs kept verbatim) and the remainder after the closing
quote.  Fuel bounds the recursion by the input length. -/
def scanJsonStr : Nat → List Char → Option (List Char × List Char)
  | 0, _ => none
  | _ + 1, [] => none
  | fuel + 1, c :: cs =>
    if c = '"' then some ([], cs)
    else if c = '\\' then
      match cs with
      | [] => none
      | e :: cs2 => (scanJsonStr fuel cs2).map fun p => ('\\' :: e :: p.1, p.2)
    else (scanJsonStr fuel cs).map fun p => (c :: p.1, p.2)

/-- Raw span of one JSON value, as json.RawMessage captures it: consume
balanced brackets and strings until a comma or closing brace at nesting
depth zero, which is left unconsumed. -/
def scanJsonValue : Nat → Nat → List Char → Option (List Char × List Char)
  | 0, _, _ => none
  | _ + 1, depth, [] => if depth = 0 then some ([], []) else none
  | fuel + 1, depth, c :: cs =>
    if depth = 0 && (c = ',' || c = '}') then some ([], c :: cs)
    else if c = '"' then
      match scanJsonStr fuel cs with
      | none => none
      | some (s, rest) =>
        (scanJsonValue fuel depth rest).map fun p => ('"' :: (s ++ '"' :: p.1), p.2)
    else if c = '{' || c = '[' then
      (scanJsonValue fuel (depth + 1) cs).map fun p => (c :: p.1, p.2)
    else if c = '}' || c = ']' then
      if depth = 0 then none
      else (scanJsonValue fuel (depth - 1) cs).map fun p => (c :: p.1, p.2)
    else (scanJsonValue fuel depth cs).map fun p => (c :: p.1, p.2)

/-- Trailing white space removal on a raw value span. -/
def trimWsEnd (cs : List Char) : List Char :=
  (skipWs cs.reverse).reverse

/-- Field loop of the top-level object decode of parseJSON: repeatedly a
string key, a colon, a raw value span, then a comma or the closing
brace.  Later duplicate keys overwrite earlier ones, as in a Go map. -/
def parseJsonFields : Nat → List Char → List (String × String) →
    Option (List (String × String) × List Char)
  | 0, _, _ => none
  | fuel + 1, cs, acc =>
    match skipWs cs with
    | '}' :: rest => some (acc, rest)
    | '"' :: rest =>
      match scanJsonStr fuel rest with
      | none => none
      | some (key, rest2) =>
        match skipWs rest2 with
        | ':' :: rest3 =>
          match scanJsonValue fuel 0 (skipWs rest3) with
          | none => none
          | some (raw, rest4) =>
            let acc2 := mapInsert acc (String.mk key) (String.mk (trimWsEnd raw))
            match rest4 with
            | ',' :: rest5 => parseJsonFields fuel rest5 acc2
            | '}' :: rest5 => some (acc2, rest5)
            | _ => none
        | _ => none
    | _ => none

/-- parseJSON of the smart package: json.Unmarshal of the output into a
map from key to raw message, modelled for one top-level object; none is
the error return. -/
def parseJSON (s : String) : Option (List (String × String)) :=
  match skipWs s.data with
  | '{' :: rest =>
    match parseJsonFields (2 * s.data.length + 2) rest [] with
    | some (fields, rest2) => if (skipWs rest2).isEmpty then some fields else none
    | none => none
  | _ => none

/-- sanitizeLabelValue of the smart package: removes double quotes and
newlines. -/
def sanitizeLabelValue (value : String) : String :=
  String.mk ((value.data.filter (fun c => !(c = '"'))).filter (fun c => !(c = '\n')))

/-- Reserved top-level keys of the structured info output. -/
def parsableFields : List String :=
  ["json_format_version", "smartctl", "device", "smart_status"]

/-- attributes of the smart package: every top-level key outside the
reserved set becomes a sanitized free-form attribute. -/
def attributesOf (mapped : List (String × String)) : List (String × String) :=
  mapped.foldl
    (fun acc kv =>
      if parsableFields.contains kv.1 then acc
      else mapInsert acc kv.1 (sanitizeLabelValue kv.2)) []

/-- Lookup in the decoded JSON map. -/
def lookupMap (m : List (String × String)) (k : String) : Option String :=
  (m.find? (fun p => p.1 = k)).map Prod.snd

/-- Device.infoJSON of the smart package as a function of the structured
info output: free-form attributes from the non-reserved keys; the
smart_status object, when present, is decoded again and a raw "passed"
value equal to "true" sets available, enabled and healthy; none is the
error return (undecodable document). -/
def infoJSON (output : String) : Option DeviceInfo :=
  match parseJSON output with
  | none => none
  | some mapped =>
    let base : DeviceInfo := { Attributes := attributesOf mapped }
    match lookupMap mapped "smart_status" with
    | none => some base
    | some statusRaw =>
      match parseJSON statusRaw with
      | none => none
      | some statusDetail =>
        match lookupMap statusDetail "passed" with
        | none => some base
        | some p =>
          if p = "true" then some { base with Available := true, Enabled := true, Healthy := true }
          else some base

/-- mergeMaps of the smart package: entries of the second map inserted
over a copy of the first. -/
def mergeMaps (map1 map2 : List (String × String)) : List (String × String) :=
  map2.foldl (fun acc kv => mapInsert acc kv.1 kv.2) map1

/-- boolToMetric of the smart package. -/
def boolToMetric (val : Bool) : ℚ :=
  if val then 1 else 0

/-- Version of the smart package applied to the version output of a
pass; none models the panic inside firstLine or the field index. -/
def versionW (w : World) : Option String :=
  versionFromOutput w.versionOutput

/-- JSONCapable for a pass: the extracted version string checked against
the structured-output minimum; propagates the extraction panic. -/
def jsonCapableW (w : World) : Option Bool :=
  match versionW w with
  | none => none
  | some v => some (jsonCapable v)

/-- CollectInfoMetrics of the smart package for one device: getDevInfo
dispatches on JSONCapable (which runs the version command) between the
structured and the legacy info parser; a parse error is logged and
yields no measurements; otherwise the device_info metric and the three
flag metrics are emitted.  The command list records the invocations made
for this device. -/
def collectInfoMetrics (w : World) (d : Device) : Option (List PromMetric × List Cmd) :=
  match jsonCapableW w with
  | none => none
  | some jc =>
    let cmds := [Cmd.version, Cmd.info d.Type' d.Name]
    let infoRes : Option DeviceInfo :=
      if jc then infoJSON (w.infoOutput d.Type' d.Name)
      else some (deviceInfoOf (w.infoOutput d.Type' d.Name))
    match infoRes with
    | none => some ([], cmds)
    | some info =>
      let commonLabels := [("disk", d.Name), ("type", d.Type')]
      some ([⟨"smartmon_device_info", mergeMaps commonLabels info.Attributes, 1⟩,
        ⟨"smartmon_device_smart_available", commonLabels, boolToMetric info.Available⟩,
        ⟨"smartmon_device_smart_enabled", commonLabels, boolToMetric info.Enabled⟩,
        ⟨"smartmon_device_smart_healthy", commonLabels, boolToMetric info.Healthy⟩], cmds)

/-- CollectNvmeVendorAttributes of the smart package as a function of
the attribute output: the output drops its first four characters (the
slice output[4:], which panics on shorter output — none), each remaining
line with exactly one colon contributes a sanitized label, and a single
smartmon_attributes metric of value 1 is emitted. -/
def collectNvmeVendorAttributes (output dev devType : String) : Option (List PromMetric) :=
  if output.data.length < 4 then none
  else
    let labels := ((splitOnChar '\n' (output.data.drop 4)).map String.mk).foldl
      (fun acc line =>
        match splitOnChar ':' line.data with
        | [f0, f1] => mapInsert acc (sanitizeLabelName (String.mk f0)) (goTrim (String.mk f1))
        | _ => acc)
      [("disk", dev), ("type", devType)]
    some [⟨"smartmon_attributes", labels, 1⟩]

/-- CollectVendorAttributes of the smart package: dispatch on the device
type; an unrecognized type returns an error without issuing a command or
emitting a metric. -/
def collectVendorAttributes (w : World) (d : Device) : Option (List PromMetric × List Cmd) :=
  if hasPre d.Type' "nvme" then
    match collectNvmeVendorAttributes (w.attrOutput d.Type' d.Name) d.Name d.Type' with
    | none => none
    | some ms => some (ms, [Cmd.attrs d.Type' d.Name])
  else if hasPre d.Type' "sat" then
    match collectSatVendorAttributes (w.attrOutput d.Type' d.Name) d.Name d.Type' with
    | none => none
    | some (ms, _) => some (ms, [Cmd.attrs d.Type' d.Name])
  else some ([], [])

/-- A concrete pass whose attribute output is the mixed output with a
failing row. -/
def failedRowWorld : World :=
  { versionOutput := "smartctl 6.6 2017-11-05 r4594 [x86_64-linux] (local build)",
    time := 1700000000,
    activeOk := fun _ _ => true,
    infoOutput := fun _ _ => "",
    attrOutput := fun _ _ => satMixedOutput }

/-- C6 (amended): a numeric parse failure on any of the four parsed
fields stops the attribute collection of that device at the failing
field: measurements already emitted stand — all earlier rows, and the
failing row's metrics for the fields parsed before the failing one —
while the rest of that row and every later row are suppressed and the
error is returned from the row loop; and the error is discarded above
the row loop (vendor attribute collection passes on the metrics alone,
never the error), so the cycle and the other devices are unaffected. -/
theorem c6_parse_failure_stops_device (dev devType : String) (front : List String)
    (bad : String) (back : List String)
    (hfront : (satRows dev devType front).2 = none)
    (hlen : ¬ (goFields bad).length < 10) :
    (parseGoFloat (fieldAt (goFields bad) 3).data = none →
      satRows dev devType (front ++ bad :: back) =
        ((satRows dev devType front).1, some (fieldAt (goFields bad) 3))) ∧
    (∀ v3 : ℚ, parseGoFloat (fieldAt (goFields bad) 3).data = some v3 →
      parseGoFloat (fieldAt (goFields bad) 4).data = none →
      satRows dev devType (front ++ bad :: back) =
        ((satRows dev devType front).1 ++
            [⟨"smartmon_" ++ lowerStr (fieldAt (goFields bad) 1) ++ "_value",
              [("disk", dev), ("type", devType), ("smart_id", fieldAt (goFields bad) 0)], v3⟩],
          some (fieldAt (goFields bad) 4))) ∧
    (∀ v3 v4 : ℚ, parseGoFloat (fieldAt (goFields bad) 3).data = some v3 →
      parseGoFloat (fieldAt (goFields bad) 4).data = some v4 →
      parseGoFloat (fieldAt (goFields bad) 5).data = none →
      satRows dev devType (front ++ bad :: back) =
        ((satRows dev devType front).1 ++
            [⟨"smartmon_" ++ lowerStr (fieldAt (goFields bad) 1) ++ "_value",
              [("disk", dev), ("type", devType), ("smart_id", fieldAt (goFields bad) 0)], v3⟩,
             ⟨"smartmon_" ++ lowerStr (fieldAt (goFields bad) 1) ++ "_worst",
              [("disk", dev), ("type", devType), ("smart_id", fieldAt (goFields bad) 0)], v4⟩],
          some (fieldAt (goFields bad) 5))) ∧
    (∀ v3 v4 v5 : ℚ, parseGoFloat (fieldAt (goFields bad) 3).data = some v3 →
      parseGoFloat (fieldAt (goFields bad) 4).data = some v4 →
      parseGoFloat (fieldAt (goFields bad) 5).data = some v5 →
      parseGoFloat (fieldAt (goFields bad) 9).data = none →
      satRows dev devType (front ++ bad :: back) =
        ((satRows dev devType front).1 ++
            [⟨"smartmon_" ++ lowerStr (fieldAt (goFields bad) 1) ++ "_value",
              [("disk", dev), ("type", devType), ("smart_id", fieldAt (goFields bad) 0)], v3⟩,
             ⟨"smartmon_" ++ lowerStr (fieldAt (goFields bad) 1) ++ "_worst",
              [("disk", dev), ("type", devType), ("smart_id", fieldAt (goFields bad) 0)], v4⟩,
             ⟨"smartmon_" ++ lowerStr (fieldAt (goFields bad) 1) ++ "_threshold",
              [("disk", dev), ("type", devType), ("smart_id", fieldAt (goFields bad) 0)], v5⟩],
          some (fieldAt (goFields bad) 9))) ∧
    (∀ (w : World) (d : Device), hasPre d.Type' "sat" = true →
      (w.attrOutput d.Type' d.Name).data ≠ [] →
      collectVendorAttributes w d =
        some ((satRows d.Name d.Type'
            ((splitOnChar '\n' (w.attrOutput d.Type' d.Name).data.tail).map String.mk)).1,
          [Cmd.attrs d.Type' d.Name])) := by
  refine ⟨?_, ?_, ?_, ?_, ?_⟩
  · intro hp3
    rw [satRows_append dev devType front (bad :: back) hfront]
    simp only [satRows, if_neg hlen, hp3]
    simp
  · intro v3 hp3 hp4
    rw [satRows_append dev devType front (bad :: back) hfront]
    simp only [satRows, if_neg hlen, hp3, hp4]
  · intro v3 v4 hp3 hp4 hp5
    rw [satRows_append dev devType front (bad :: back) hfront]
    simp only [satRows, if_neg hlen, hp3, hp4, hp5]
  · intro v3 v4 v5 hp3 hp4 hp5 hp9
    rw [satRows_append dev devType front (bad :: back) hfront]
    simp only [satRows, if_neg hlen, hp3, hp4, hp5, hp9]
  · intro w d hsat hne
    have hnv : hasPre d.Type' "nvme" = false := by
      rw [hasPre] at hsat ⊢
      exact isPrefixOf_false_of _ _ _ hsat (by decide)
    rw [collectVendorAttributes, if_neg (by simp [hnv]), if_pos hsat]
    cases ho : (w.attrOutput d.Type' d.Name).data with
    | nil => exact absurd ho hne
    | cons c rest => simp [collectSatVendorAttributes, ho]

/-- Witness for the amended C6 theorem: a failure at field 4 behind a
clean first row (the value metric of the failing row stands, the rest
is suppressed, the error names the bad token), and the discard of the
error above the row loop on the concrete mixed output. -/
theorem c6_parse_failure_stops_device_witness :
    satRows "/dev/sda" "sat"
        (["5 Reallocated 0x0033 100 100 010 Pre-fail Always - 0"] ++
          "7 Seek 0x002f 100 yy 030 Pre-fail Always - 0" ::
          ["9 Power_On 0x0032 95 95 000 Old_age Always - 24299"]) =
      ((satRows "/dev/sda" "sat" ["5 Reallocated 0x0033 100 100 010 Pre-fail Always - 0"]).1 ++
          [⟨"smartmon_" ++
              lowerStr (fieldAt (goFields "7 Seek 0x002f 100 yy 030 Pre-fail Always - 0") 1) ++
              "_value",
            [("disk", "/dev/sda"), ("type", "sat"),
              ("smart_id", fieldAt (goFields "7 Seek 0x002f 100 yy 030 Pre-fail Always - 0") 0)],
            100⟩],
        some (fieldAt (goFields "7 Seek 0x002f 100 yy 030 Pre-fail Always - 0") 4)) ∧
    collectVendorAttributes failedRowWorld ⟨"/dev/sda", "/dev/sda [SAT]", "sat", "ATA device"⟩ =
      some ((satRows "/dev/sda" "sat"
          ((splitOnChar '\n' (failedRowWorld.attrOutput "sat" "/dev/sda").data.tail).map
            String.mk)).1,
        [Cmd.attrs "sat" "/dev/sda"]) :=
  ⟨(c6_parse_failure_stops_device "/dev/sda" "sat"
        ["5 Reallocated 0x0033 100 100 010 Pre-fail Always - 0"]
        "7 Seek 0x002f 100 yy 030 Pre-fail Always - 0"
        ["9 Power_On 0x0032 95 95 000 Old_age Always - 24299"]
        (by decide) (by decide)).2.1 100 (by decide) (by decide),
   (c6_parse_failure_stops_device "/dev/sda" "sat"
        ["5 Reallocated 0x0033 100 100 010 Pre-fail Always - 0"]
        "7 Seek 0x002f 100 yy 030 Pre-fail Always - 0"
        ["9 Power_On 0x0032 95 95 000 Old_age Always - 24299"]
        (by decide) (by decide)).2.2.2.2
      failedRowWorld ⟨"/dev/sda", "/dev/sda [SAT]", "sat", "ATA device"⟩ rfl (by decide)⟩

/-- Loop body of Collector.Collect of the smart package for one device:
the non-waking standby probe runs first; when it fails the device is
treated as inactive, the device_active metric with value 0 is the only
emission and no further command is issued for the device; when it
succeeds the device_active metric with value 1 is followed by the info
metrics and the vendor attributes. -/
def collectDevice (w : World) (d : Device) : Option (List PromMetric × List Cmd) :=
  if w.activeOk d.Type' d.Name then
    match collectInfoMetrics w d with
    | none => none
    | some (ms1, cs1) =>
      match collectVendorAttributes w d with
      | none => none
      | some (ms2, cs2) =>
        some (⟨"smartmon_device_active", [("disk", d.Name), ("type", d.Type')], 1⟩ ::
            (ms1 ++ ms2),
          Cmd.active d.Type' d.Name :: (cs1 ++ cs2))
  else
    some ([⟨"smartmon_device_active", [("disk", d.Name), ("type", d.Type')], 0⟩],
      [Cmd.active d.Type' d.Name])

/-- C2: when the standby probe of a device fails, the collector loop
body emits exactly the inactive marker for that device and issues no
info or attribute command against it, and the legacy main loop likewise
prints only the run metric and the value-0 active metric with no further
command after the probe. -/
theorem c2_inactive_device_is_left_alone (w : World) (d : Device)
    (h : w.activeOk d.Type' d.Name = false) :
    collectDevice w d =
      some ([⟨"smartmon_device_active", [("disk", d.Name), ("type", d.Type')], 0⟩],
        [Cmd.active d.Type' d.Name]) ∧
    mainDeviceBody w d.Name d.Type' =
      some ([smartMonRunMetric d.Name d.Type' w.time, smartMonDeviceActive d.Name d.Type' true],
        [Cmd.active d.Type' d.Name]) := by
  constructor
  · rw [collectDevice, if_neg (by simp [h])]
  · rw [mainDeviceBody]
    simp only [h]
    rfl

/-- Witness for C2 on the concrete all-inactive pass. -/
theorem c2_inactive_device_is_left_alone_witness :
    collectDevice inactiveWorld ⟨"/dev/sda", "/dev/sda [SAT]", "sat", "ATA device"⟩ =
      some ([⟨"smartmon_device_active", [("disk", "/dev/sda"), ("type", "sat")], 0⟩],
        [Cmd.active "sat" "/dev/sda"]) ∧
    mainDeviceBody inactiveWorld "/dev/sda" "sat" =
      some ([smartMonRunMetric "/dev/sda" "sat" 1700000000,
        smartMonDeviceActive "/dev/sda" "sat" true], [Cmd.active "sat" "/dev/sda"]) :=
  c2_inactive_device_is_left_alone inactiveWorld
    ⟨"/dev/sda", "/dev/sda [SAT]", "sat", "ATA device"⟩ rfl
